import Mathlib

/-!
# Verification of the WS2812B LED pipeline (my-ws2812b-vibe-led)

Shallow embedding of the Go/C sources of the repository:
* `pipeline.go` — layer store (`AddLayer`, `RemoveLayer`), the render tick
  (timeout eviction, layer ordering via Go's `sort.Slice`), `fixColor`;
* `lua_engine.go` — the `set_pixel` / `get_pixel` sandbox API;
* `c-driver` (`driver.h`, the SPI driver C file) — the WS2812 protocol encoder.

Modelling conventions:
* Go `float64` values (times, timeouts, pixel channels, Lua numbers) are
  embedded as exact rationals `ℚ`; `time.Time` values as rationals (seconds),
  with the zero `time.Time` embedded as `0`.
* The pixel buffer (`[]float64` of length `LEDCount*3`) is embedded as a total
  function `ℕ → ℚ`; indices outside `[0, LEDCount*3)` are never read or
  written by the embedded operations.
* Go machine integers are embedded as `Int`/`ℕ`; the Go `float64 → uint8`
  conversion truncates toward zero, embedded as `Int.floor` + `Int.toNat`
  (all converted values in this code are in `[0, 255]`).
* The concurrent map `sync.Map` keyed by layer name is embedded as an
  association list `List RenderLayer` whose entries carry their key
  (`Name`); the representation invariant of a key-value map is that names
  are `Nodup`.
* Go's `sort.Slice` is an external library call; it is embedded by a faithful
  transcription of its implementation (`pdqsort_func` and its helpers from
  `sort/zsortfunc.go`, identical in Go 1.19 through 1.22+), operating on a
  `List` viewed as an array with `get`/`swap` primitives.
-/

/-- `BlendMode` from `lua_engine.go`: `ModeOverwrite` is the zero value
(`iota`), `ModeBase` the second. -/
inductive BlendMode where
  | ModeOverwrite
  | ModeBase
deriving DecidableEq, Repr, Inhabited

/-- `RenderLayer` from `lua_engine.go`. `Type` is a reserved word in Lean, so
the Go field `Type` is embedded as `Type'`. `TimeoutSeconds` (float64 seconds)
and `AddedAt` (a `time.Time`) are embedded as rationals. -/
structure RenderLayer where
  Name : String
  Code : String
  Type' : String
  Priority : Int
  BlendMode : BlendMode
  TimeoutSeconds : ℚ
  AddedAt : ℚ
deriving DecidableEq, Repr, Inhabited

/-- `LED_COUNT` from `c-driver/driver.h`, re-exported to Go as `LEDCount`. -/
def LEDCount : ℕ := 60

/-- `BITS_PER_LED` from `c-driver/driver.h`. -/
def BITS_PER_LED : ℕ := 24

/-- `RESET_BYTES` from the SPI driver C file. -/
def RESET_BYTES : ℕ := 40

/-- Errors returned by the layer store operations in `pipeline.go`
(`AddLayer` rejects an unknown layer type; `RemoveLayer` rejects an absent
name). The Go code returns formatted error strings; only the error case is
relevant, embedded as a small error type. -/
inductive LayerError where
  | invalidKind (t : String)
  | notFound (n : String)
deriving DecidableEq, Repr

/-- `sync.Map.Store(layer.Name, layer)` on the association-list model:
replace the first entry with the same name, or append a fresh entry. -/
def storePut : List RenderLayer → RenderLayer → List RenderLayer
  | [], l => [l]
  | e :: es, l => if e.Name = l.Name then l :: es else e :: storePut es l

/-- `sync.Map.Load(name)` on the association-list model. -/
def storeLoad (es : List RenderLayer) (name : String) : Option RenderLayer :=
  es.find? (fun e => e.Name == name)

/-- `sync.Map.Delete(name)` on the association-list model. -/
def storeDeleteName (es : List RenderLayer) (name : String) : List RenderLayer :=
  es.filter (fun e => ¬(e.Name = name))

/-- The `Range` loop inside `AddLayer` (`pipeline.go:80-87`): when a BASE
layer is added, delete every BASE-kind entry whose name differs from the
incoming layer's name. -/
def deleteOtherBase (es : List RenderLayer) (name : String) : List RenderLayer :=
  es.filter (fun e => ¬(e.Type' = "BASE" ∧ ¬(e.Name = name)))

/-- `PipelineManager.AddLayer` (`pipeline.go:64-107`), with the store made
explicit and `time.Now()` passed in as `now`.  Returns the new store and the
error (if any); on error the store is returned unchanged, exactly as in the
source where the early `return` precedes every mutation. -/
def AddLayer (es : List RenderLayer) (layer : RenderLayer) (now : ℚ) :
    List RenderLayer × Option LayerError :=
  -- switch layer.Type
  if layer.Type' = "BASE" ∨ layer.Type' = "TEMPORARY" then
    let layer1 : RenderLayer :=
      if layer.Type' = "BASE" then { layer with BlendMode := .ModeBase }
      else { layer with BlendMode := .ModeOverwrite, AddedAt := now }
    -- Ensure only one BASE layer exists at a time.
    let es1 : List RenderLayer :=
      if layer1.Type' = "BASE" then deleteOtherBase es layer1.Name else es
    -- Preserve original AddedAt unless it's a new TEMPORARY layer.
    let layer2 : RenderLayer :=
      match storeLoad es1 layer1.Name with
      | some existingLayer =>
          if ¬(layer1.Type' = "TEMPORARY") then
            { layer1 with AddedAt := existingLayer.AddedAt }
          else layer1
      | none =>
          if layer1.AddedAt = 0 then { layer1 with AddedAt := now } else layer1
    (storePut es1 layer2, none)
  else
    (es, some (.invalidKind layer.Type'))

/-- `PipelineManager.RemoveLayer` (`pipeline.go:110-120`). -/
def RemoveLayer (es : List RenderLayer) (name : String) :
    List RenderLayer × Option LayerError :=
  match storeLoad es name with
  | some _ => (storeDeleteName es name, none)
  | none => (es, some (.notFound name))

/-- Number of BASE-kind entries in the store. -/
def countBase (es : List RenderLayer) : ℕ :=
  es.countP (fun e => decide (e.Type' = "BASE"))

/-- One mutation of the layer store: an `AddLayer` call (with the wall-clock
time of the call) or a `RemoveLayer` call. -/
inductive StoreOp where
  | add (layer : RenderLayer) (now : ℚ)
  | remove (name : String)

/-- Apply one store operation, keeping the (unchanged) store on error. -/
def applyOp (es : List RenderLayer) : StoreOp → List RenderLayer
  | .add layer now => (AddLayer es layer now).1
  | .remove name => (RemoveLayer es name).1

/-- Apply a sequence of store operations. -/
def applyOps (es : List RenderLayer) (ops : List StoreOp) : List RenderLayer :=
  ops.foldl applyOp es

/-- The timeout test of `renderFrame` (`pipeline.go:150-161`): a layer is
deleted during the tick at absolute time `now` (pipeline started at `start`)
iff it is TEMPORARY, `timeElapsed > TimeoutSeconds`, and `TimeoutSeconds > 0`.
`currentTime = time.Since(startTime).Seconds() = now - start` and
`timeElapsed = currentTime - (AddedAt - start)`, exactly as in the source. -/
def evictedAtTick (l : RenderLayer) (now start : ℚ) : Bool :=
  l.Type' == "TEMPORARY" &&
    (decide ((now - start) - (l.AddedAt - start) > l.TimeoutSeconds) &&
     decide (l.TimeoutSeconds > 0))

/-- The store after phase 1 of `renderFrame`: expired TEMPORARY layers are
deleted, everything else is kept. -/
def tickStore (es : List RenderLayer) (now start : ℚ) : List RenderLayer :=
  es.filter (fun l => ¬(evictedAtTick l now start = true))

/-- The `activeLayers` snapshot collected by phase 1 of `renderFrame`: every
stored layer that is not evicted at this tick. -/
def tickActive (es : List RenderLayer) (now start : ℚ) : List RenderLayer :=
  es.filter (fun l => ¬(evictedAtTick l now start = true))

/-- The pixel buffer `pixelBuffer []float64` (length `LEDCount*3`), embedded
as a total function from flat index to channel value. -/
def PixBuf : Type := ℕ → ℚ

/-- The `set_pixel(index, r, g, b)` closure of `setupLuaState`
(`lua_engine.go:62-88`): scale the 0.0–1.0 inputs to 0–255 and clamp, then
write the three channels, provided `0 ≤ index < LEDCount`; otherwise do
nothing. -/
def setPixelFunc (buf : PixBuf) (index : Int) (rIn gIn bIn : ℚ) : PixBuf :=
  let r := max 0 (min 255 (rIn * 255))
  let g := max 0 (min 255 (gIn * 255))
  let b := max 0 (min 255 (bIn * 255))
  if 0 ≤ index ∧ index < LEDCount then
    let idx : ℕ := index.toNat * 3
    fun j => if j = idx then r else if j = idx + 1 then g else if j = idx + 2 then b else buf j
  else buf

/-- The `get_pixel(index)` closure of `setupLuaState` (`lua_engine.go:39-58`):
return the three channels scaled back to 0.0–1.0, or `(0, 0, 0)` for an
out-of-range index. -/
def getPixelFunc (buf : PixBuf) (index : Int) : ℚ × ℚ × ℚ :=
  if 0 ≤ index ∧ index < LEDCount then
    let idx : ℕ := index.toNat * 3
    (buf idx / 255, buf (idx + 1) / 255, buf (idx + 2) / 255)
  else
    (0, 0, 0)

/-- The Go conversion `uint8(x)` for a float64 `x` with `0 ≤ x ≤ 255`:
truncation toward zero. -/
def u8cast (x : ℚ) : ℕ := (⌊x⌋).toNat

/-- `fixColor` (`pipeline.go:31-41`): gamma-2 response scaled by per-channel
bias constants (`0x88` for green, `0x66` for blue), capped at 255 and
converted to `uint8`. `math.Pow(x, 2.0) = x^2` exactly. -/
def fixColor (colorR colorG colorB : ℚ) : ℕ × ℕ × ℕ :=
  let MaxValU8 : ℚ := 255
  let colorROut := (colorR / MaxValU8) ^ 2 * MaxValU8
  let colorGOut := (colorG / MaxValU8) ^ 2 * (MaxValU8 * (136 / MaxValU8))
  let colorBOut := (colorB / MaxValU8) ^ 2 * (MaxValU8 * (102 / MaxValU8))
  (u8cast (min 255 colorROut), u8cast (min 255 colorGOut), u8cast (min 255 colorBOut))

/-- The claim-side formula for one `fixColor` channel: divide by 255, square,
scale by `scale`, clamp to `[0, 255]`, convert to a byte. -/
def fixChannelSpec (scale c : ℚ) : ℕ :=
  u8cast (min 255 (max 0 ((c / 255) ^ 2 * scale)))

/-- `encode_byte` from the SPI driver C file: emit 8 transport bytes for one
color byte, most significant bit first; a 1 bit becomes `DATA_HIGH =
0b00011111`, a 0 bit becomes `DATA_LOW = 0b00000011`. The loop
`for (i = 7; i >= 0; i--)` is embedded as a map over `[7, 6, ..., 0]`. -/
def encode_byte (color_byte : ℕ) : List ℕ :=
  [7, 6, 5, 4, 3, 2, 1, 0].map
    (fun i => if color_byte &&& (1 <<< i) ≠ 0 then 31 else 3)

/-- The transmit buffer built by `ws2812_send_colors` in the SPI driver C
file: for each LED, the G, R, B channel bytes each expanded by `encode_byte`,
followed by `RESET_BYTES` zero bytes (`calloc` zero-initialises the buffer and
only the first `num_leds * BITS_PER_LED` bytes are written). -/
def ws2812_tx_buffer (rgb_data : List ℕ) (num_leds : ℕ) : List ℕ :=
  ((List.range num_leds).flatMap (fun i =>
      encode_byte (rgb_data.getD (i * 3 + 1) 0) ++
      encode_byte (rgb_data.getD (i * 3 + 0) 0) ++
      encode_byte (rgb_data.getD (i * 3 + 2) 0))) ++
    List.replicate RESET_BYTES 0

/-- Claim-side bit expansion of one byte: bits read most-significant first via
`Nat.testBit`, a 1 bit mapping to `0b00011111 = 31`, a 0 bit to
`0b00000011 = 3`. -/
def encodeByteSpec (b : ℕ) : List ℕ :=
  (List.range 8).map (fun k => if b.testBit (7 - k) then 31 else 3)

/-- The default black base layer installed by `NewPipelineManager`
(`pipeline.go:52-59`); `start` is `p.startTime`. Fields absent from the Go
struct literal take their zero values. -/
def baseBlackLayer (start : ℚ) : RenderLayer :=
  { Name := "base_black"
    Type' := "BASE"
    Code := "for i=0, LEDCount-1 do set_pixel(i, 0.0, 0.0, 0.0) end"
    Priority := 0
    BlendMode := .ModeOverwrite
    TimeoutSeconds := 0
    AddedAt := start }

/-- The layer store immediately after `NewPipelineManager` (`pipeline.go:44-61`):
the result of adding the default black base layer to the empty store. `now`
is the wall-clock time of the inner `time.Now()` calls during that add. -/
def NewPipelineManagerStore (start now : ℚ) : List RenderLayer :=
  (AddLayer [] (baseBlackLayer start) now).1

/-- The effect of executing the Lua code of the `base_black` layer
(`for i=0, LEDCount-1 do set_pixel(i, 0.0, 0.0, 0.0) end`) on a pixel buffer:
`set_pixel(i, 0.0, 0.0, 0.0)` applied for `i = 0, ..., LEDCount-1`. -/
def runBaseBlackCode (buf : PixBuf) : PixBuf :=
  (List.range LEDCount).foldl (fun b (i : ℕ) => setPixelFunc b (Int.ofNat i) 0 0 0) buf

/-! ## Go `sort.Slice` (pdqsort), transcribed from `sort/zsortfunc.go`

`renderFrame` orders the active layers with `sort.Slice` (`pipeline.go:167`).
`sort.Slice` is Go's pattern-defeating quicksort (identical from Go 1.19
through current releases); it is *not* a stable sort.  The slice is embedded
as a `List` indexed from 0, with `aget`/`aswap` playing `data.Less`'s index
reads and `data.Swap`.  Loops are embedded with explicit fuel; every loop of
the Go code terminates within the fuel supplied below. -/

variable {α : Type}

/-- A TEMPORARY layer for the sorting counterexample: name `L<n>`,
priority `p`. -/
def cexLayer (n : ℕ) (p : Int) : RenderLayer :=
  { Name := "L" ++ toString n, Code := "", Type' := "TEMPORARY", Priority := p,
    BlendMode := .ModeOverwrite, TimeoutSeconds := 0, AddedAt := 0 }

/-- Clamping to `[0,255]` after scaling by 255, then dividing by 255, is
clamping to `[0,1]` (exact rational arithmetic). -/
theorem clamp255_div (r : ℚ) : max 0 (min 255 (r * 255)) / 255 = max 0 (min 1 r) := by
  rcases le_total r 0 with h0 | h0
  · have h1 : r * 255 ≤ 0 := by nlinarith
    rw [min_eq_right (by linarith : r * 255 ≤ 255), max_eq_left (by linarith),
      min_eq_right (by linarith : r ≤ 1), max_eq_left h0]
    norm_num
  · rcases le_total r 1 with h1 | h1
    · rw [min_eq_right (by nlinarith : r * 255 ≤ 255), max_eq_right (by nlinarith),
        min_eq_right h1, max_eq_right h0]
      field_simp
    · rw [min_eq_left (by nlinarith : 255 ≤ r * 255), max_eq_right (by norm_num),
        min_eq_left h1, max_eq_right (by linarith)]
      norm_num

/-- C5: within one script execution, `set_pixel(i, r, g, b)` followed by
`get_pixel(i)` at the same in-range index returns the componentwise clamp of
`(r, g, b)` to `[0, 1]`; in particular `set_pixel(0, 1.5, -0.2, 0.5)` then
`get_pixel(0)` yields `(1.0, 0.0, 0.5)`. -/
theorem set_get_pixel_roundtrip (buf : PixBuf) (index : Int)
    (h : 0 ≤ index ∧ index < LEDCount) (r g b : ℚ) :
    getPixelFunc (setPixelFunc buf index r g b) index =
      (max 0 (min 1 r), max 0 (min 1 g), max 0 (min 1 b)) ∧
    getPixelFunc (setPixelFunc buf 0 (3 / 2) (-(1 / 5)) (1 / 2)) 0 = (1, 0, 1 / 2) := by
  constructor
  · unfold getPixelFunc setPixelFunc
    rw [if_pos h, if_pos h]
    have h1 : index.toNat * 3 + 1 ≠ index.toNat * 3 := by omega
    have h2 : index.toNat * 3 + 2 ≠ index.toNat * 3 := by omega
    have h3 : index.toNat * 3 + 2 ≠ index.toNat * 3 + 1 := by omega
    simp only [if_pos rfl, if_neg h1, if_neg h2, if_neg h3, eq_self_iff_true, if_true]
    rw [clamp255_div, clamp255_div, clamp255_div]
  · have h0 : (0 : Int) ≤ 0 ∧ (0 : Int) < LEDCount := by constructor <;> decide
    unfold getPixelFunc setPixelFunc
    rw [if_pos h0, if_pos h0]
    norm_num

/-- C5 witness: instantiation at the all-zero buffer and index 0. -/
theorem set_get_pixel_roundtrip_witness :
    getPixelFunc (setPixelFunc (fun _ => 0) 0 (3 / 2) (-(1 / 5)) (1 / 2)) 0 = (1, 0, 1 / 2) :=
  (set_get_pixel_roundtrip (fun _ => 0) 0 ⟨by decide, by decide⟩ 0 0 0).2

/-- C6: for any index outside `[0, LEDCount)`, `get_pixel` returns
`(0.0, 0.0, 0.0)` (without failing) and `set_pixel` leaves the whole pixel
buffer unchanged, for all channel inputs. -/
theorem pixel_api_out_of_range (buf : PixBuf) (index : Int)
    (h : ¬(0 ≤ index ∧ index < LEDCount)) (r g b : ℚ) :
    getPixelFunc buf index = (0, 0, 0) ∧ setPixelFunc buf index r g b = buf := by
  unfold getPixelFunc setPixelFunc
  rw [if_neg h, if_neg h]
  exact ⟨rfl, rfl⟩

/-- C6 witness: instantiation at index `LEDCount = 60`. -/
theorem pixel_api_out_of_range_witness :
    getPixelFunc (fun _ => 0) 60 = (0, 0, 0) ∧
      setPixelFunc (fun _ => 0) 60 1 1 1 = (fun _ => 0) :=
  pixel_api_out_of_range (fun _ => 0) 60 (by decide) 1 1 1

/-- C7: `fixColor` is the pure function that squares each channel scaled to
`[0,1]` (gamma 2.0) and rescales by 255 (red), `0x88 = 136` (green) and
`0x66 = 102` (blue), clamping every output to `[0, 255]` (the `uint8`
conversion truncates); in particular `fixColor 255 255 255 = (255, 136, 102)`. -/
theorem fixColor_gamma_bias_spec (r g b : ℚ)
    (hr : 0 ≤ r ∧ r ≤ 255) (hg : 0 ≤ g ∧ g ≤ 255) (hb : 0 ≤ b ∧ b ≤ 255) :
    fixColor r g b = (fixChannelSpec 255 r, fixChannelSpec 136 g, fixChannelSpec 102 b) ∧
    (fixColor r g b).1 ≤ 255 ∧ (fixColor r g b).2.1 ≤ 255 ∧ (fixColor r g b).2.2 ≤ 255 ∧
    fixColor 255 255 255 = (255, 136, 102) := by
  have key : ∀ (s c : ℚ), 0 ≤ s →
      u8cast (min 255 ((c / 255) ^ 2 * s)) = fixChannelSpec s c := by
    intro s c hs
    unfold fixChannelSpec
    rw [max_eq_right (by positivity)]
  have hbound : ∀ x : ℚ, u8cast (min 255 x) ≤ 255 := by
    intro x
    unfold u8cast
    have h1 : (⌊min 255 x⌋ : ℤ) ≤ 255 := by
      calc ⌊min 255 x⌋ ≤ ⌊(255 : ℚ)⌋ := Int.floor_le_floor (min_le_left _ _)
      _ = 255 := by norm_num
    omega
  have hval : fixColor 255 255 255 = (255, 136, 102) := by
    simp only [fixColor, u8cast]
    norm_num
    decide
  refine ⟨?_, ?_, ?_, ?_, hval⟩
  · simp only [fixColor]
    rw [show ((255 : ℚ) * (136 / 255)) = 136 by norm_num,
      show ((255 : ℚ) * (102 / 255)) = 102 by norm_num]
    rw [key 255 r (by norm_num), key 136 g (by norm_num), key 102 b (by norm_num)]
  all_goals
    simp only [fixColor]
    exact hbound _

/-- C7 witness: instantiation at the all-white input. -/
theorem fixColor_gamma_bias_spec_witness : fixColor 255 255 255 = (255, 136, 102) :=
  (fixColor_gamma_bias_spec 255 255 255 ⟨by norm_num, by norm_num⟩
    ⟨by norm_num, by norm_num⟩ ⟨by norm_num, by norm_num⟩).2.2.2.2

/-- `encode_byte` emits, most-significant bit first, `31` for a set bit and
`3` for a clear bit. -/
theorem encode_byte_eq_spec (c : ℕ) : encode_byte c = encodeByteSpec c := by
  have key : ∀ i : ℕ,
      (if c &&& (1 <<< i) ≠ 0 then (31 : ℕ) else 3) = if c.testBit i then 31 else 3 := by
    intro i
    have hsh : (1 <<< i) = 2 ^ i := by rw [Nat.shiftLeft_eq, one_mul]
    by_cases hb : c.testBit i
    · rw [if_pos hb, if_pos]
      rw [hsh, Nat.and_two_pow, hb]
      simp
    · rw [if_neg hb, if_neg]
      rw [hsh, Nat.and_two_pow]
      simp [hb]
  unfold encode_byte encodeByteSpec
  rw [show List.range 8 = [0, 1, 2, 3, 4, 5, 6, 7] from rfl]
  simp only [List.map]
  rw [key 7, key 6, key 5, key 4, key 3, key 2, key 1, key 0]

/-- Each `encode_byte` block has 8 bytes. -/
theorem encode_byte_length (c : ℕ) : (encode_byte c).length = 8 := by
  unfold encode_byte
  simp

/-- The per-LED section of the transmit buffer has `24 * n` bytes. -/
theorem tx_blocks_length (rgb_data : List ℕ) :
    ∀ n : ℕ, (((List.range n).flatMap (fun i =>
      encode_byte (rgb_data.getD (i * 3 + 1) 0) ++
      encode_byte (rgb_data.getD (i * 3 + 0) 0) ++
      encode_byte (rgb_data.getD (i * 3 + 2) 0))).length) = n * 24 := by
  intro n
  induction n with
  | zero => simp
  | succ m ih =>
    rw [List.range_succ, List.flatMap_append, List.length_append, ih]
    simp [encode_byte_length]
    ring

/-- C8: for `num_leds > 0` and an RGB byte array of length `num_leds*3`, the
encoded transmit buffer has exactly `num_leds*24 + 40` bytes, consists of the
per-LED G, R, B channel bytes each expanded MSB-first (1 bit ↦ `0b00011111`,
0 bit ↦ `0b00000011`), and ends with exactly 40 zero reset bytes. -/
theorem ws2812_encoding_spec (rgb_data : List ℕ) (num_leds : ℕ)
    (hn : 0 < num_leds) (hlen : rgb_data.length = num_leds * 3) :
    (ws2812_tx_buffer rgb_data num_leds).length = num_leds * 24 + 40 ∧
    ws2812_tx_buffer rgb_data num_leds =
      ((List.range num_leds).flatMap (fun i =>
        encodeByteSpec (rgb_data.getD (i * 3 + 1) 0) ++
        encodeByteSpec (rgb_data.getD (i * 3 + 0) 0) ++
        encodeByteSpec (rgb_data.getD (i * 3 + 2) 0))) ++ List.replicate 40 0 ∧
    (ws2812_tx_buffer rgb_data num_leds).drop (num_leds * 24) = List.replicate 40 0 := by
  refine ⟨?_, ?_, ?_⟩
  · unfold ws2812_tx_buffer
    rw [List.length_append, tx_blocks_length, List.length_replicate]
    rfl
  · unfold ws2812_tx_buffer
    rw [show RESET_BYTES = 40 from rfl]
    congr 1
    exact List.flatMap_congr (fun x _ => by rw [encode_byte_eq_spec, encode_byte_eq_spec,
      encode_byte_eq_spec])
  · unfold ws2812_tx_buffer
    rw [show RESET_BYTES = 40 from rfl, show num_leds * 24 = (((List.range num_leds).flatMap
      (fun i => encode_byte (rgb_data.getD (i * 3 + 1) 0) ++
        encode_byte (rgb_data.getD (i * 3 + 0) 0) ++
        encode_byte (rgb_data.getD (i * 3 + 2) 0))).length) from (tx_blocks_length rgb_data num_leds).symm,
      List.drop_left]

/-- C8 witness: one LED with bytes `(r, g, b) = (255, 0, 1)`. -/
theorem ws2812_encoding_spec_witness :
    (ws2812_tx_buffer [255, 0, 1] 1).length = 1 * 24 + 40 :=
  (ws2812_encoding_spec [255, 0, 1] 1 (by decide) (by decide)).1

/-- The boolean eviction test coincides with the claim's condition
(`timeElapsed = (now - start) - (added_at - start) = now - added_at` in exact
arithmetic). -/
theorem evictedAtTick_iff (l : RenderLayer) (now start : ℚ) :
    evictedAtTick l now start = true ↔
      (l.Type' = "TEMPORARY" ∧ l.TimeoutSeconds > 0 ∧ now - l.AddedAt > l.TimeoutSeconds) := by
  unfold evictedAtTick
  simp only [Bool.and_eq_true, beq_iff_eq, decide_eq_true_eq]
  constructor
  · rintro ⟨h1, h2, h3⟩
    exact ⟨h1, h3, by linarith⟩
  · rintro ⟨h1, h2, h3⟩
    exact ⟨h1, by linarith, h2⟩

/-- Membership in the post-tick active set amounts to surviving the eviction
test. -/
theorem mem_tickActive_iff (es : List RenderLayer) (l : RenderLayer) (now start : ℚ)
    (hmem : l ∈ es) :
    l ∈ tickActive es now start ↔ ¬(evictedAtTick l now start = true) := by
  unfold tickActive
  rw [List.mem_filter]
  simp [hmem]

/-- C3: during a tick at time `now`, a stored layer is removed from the store
and excluded from the active set iff it is TEMPORARY with a strictly positive
timeout that has strictly expired (`now - added_at > timeout`); in particular
a TEMPORARY layer with timeout `T > 0` and `now - added_at ≤ T` stays
active. -/
theorem renderFrame_eviction_iff (es : List RenderLayer) (l : RenderLayer) (now start : ℚ)
    (hmem : l ∈ es) :
    ((l ∉ tickStore es now start) ↔
      (l.Type' = "TEMPORARY" ∧ l.TimeoutSeconds > 0 ∧ now - l.AddedAt > l.TimeoutSeconds)) ∧
    ((l ∈ tickActive es now start) ↔
      ¬(l.Type' = "TEMPORARY" ∧ l.TimeoutSeconds > 0 ∧ now - l.AddedAt > l.TimeoutSeconds)) ∧
    (l.Type' = "TEMPORARY" → 0 < l.TimeoutSeconds → now - l.AddedAt ≤ l.TimeoutSeconds →
      l ∈ tickActive es now start) := by
  have hact := mem_tickActive_iff es l now start hmem
  have hiff := evictedAtTick_iff l now start
  refine ⟨?_, ?_, ?_⟩
  · have : tickStore es now start = tickActive es now start := rfl
    rw [this, hact, not_not, hiff]
  · rw [hact, hiff]
  · intro h1 h2 h3
    rw [hact, hiff]
    rintro ⟨_, _, h⟩
    linarith

/-- C3 witness: a TEMPORARY layer with timeout 5 added at time 2 is still
active at `now = 6` (elapsed 4 ≤ 5). -/
theorem renderFrame_eviction_iff_witness :
    ({ cexLayer 0 1 with TimeoutSeconds := 5, AddedAt := 2 } : RenderLayer) ∈
      tickActive [{ cexLayer 0 1 with TimeoutSeconds := 5, AddedAt := 2 }] 6 0 :=
  (renderFrame_eviction_iff [{ cexLayer 0 1 with TimeoutSeconds := 5, AddedAt := 2 }]
    { cexLayer 0 1 with TimeoutSeconds := 5, AddedAt := 2 } 6 0
    (List.mem_singleton.mpr rfl)).2.2 rfl (by norm_num) (by norm_num)

/-- C9: `AddLayer` errors on any kind other than BASE/TEMPORARY and
`RemoveLayer` errors on an absent name, in both cases returning the store
unchanged. -/
theorem store_error_cases_no_mutation (es : List RenderLayer) (l : RenderLayer) (now : ℚ)
    (name : String) (h1 : ¬(l.Type' = "BASE")) (h2 : ¬(l.Type' = "TEMPORARY"))
    (h3 : storeLoad es name = none) :
    AddLayer es l now = (es, some (.invalidKind l.Type')) ∧
    RemoveLayer es name = (es, some (.notFound name)) := by
  constructor
  · unfold AddLayer
    rw [if_neg (by tauto)]
  · unfold RemoveLayer
    rw [h3]

/-- C9 witness: kind `"X"` is rejected and removing from the empty store
fails, both leaving the store unchanged. -/
theorem store_error_cases_no_mutation_witness :
    AddLayer [] { cexLayer 0 1 with Type' := "X" } 0 =
      ([], some (.invalidKind "X")) ∧
    RemoveLayer [] "absent" = ([], some (.notFound "absent")) :=
  store_error_cases_no_mutation [] { cexLayer 0 1 with Type' := "X" } 0 "absent"
    (by decide) (by decide) rfl

/-- Looking up the just-stored name finds the just-stored layer. -/
theorem storeLoad_storePut (es : List RenderLayer) (l : RenderLayer) :
    storeLoad (storePut es l) l.Name = some l := by
  induction es with
  | nil => simp [storePut, storeLoad, List.find?]
  | cons e es ih =>
    by_cases h : e.Name = l.Name
    · simp [storePut, h, storeLoad, List.find?]
    · simp only [storePut, if_neg h]
      unfold storeLoad at ih ⊢
      rw [List.find?_cons_of_neg _ (by simp [h]), ih]

/-- The BASE-dedup pass only deletes entries with a *different* name, so a
lookup of the incoming name is unaffected. -/
theorem storeLoad_deleteOtherBase (es : List RenderLayer) (n : String) :
    storeLoad (deleteOtherBase es n) n = storeLoad es n := by
  induction es with
  | nil => rfl
  | cons e es ih =>
    unfold deleteOtherBase at ih ⊢
    by_cases hname : e.Name = n
    · rw [List.filter_cons_of_pos (by simp [hname])]
      unfold storeLoad
      rw [List.find?_cons_of_pos _ (by simp [hname]), List.find?_cons_of_pos _ (by simp [hname])]
    · by_cases hb : e.Type' = "BASE"
      · rw [List.filter_cons_of_neg (by simp [hname, hb])]
        unfold storeLoad at ih ⊢
        rw [ih, List.find?_cons_of_neg _ (by simp [hname])]
      · rw [List.filter_cons_of_pos (by simp [hb])]
        unfold storeLoad at ih ⊢
        rw [List.find?_cons_of_neg _ (by simp [hname]), List.find?_cons_of_neg _ (by simp [hname]),
          ih]

/-- Variant of `storeLoad_storePut` keyed by an arbitrary name equal to the
stored layer's name (usable as a conditional rewrite). -/
theorem storeLoad_storePut' (es : List RenderLayer) (l : RenderLayer) (n : String)
    (h : l.Name = n) : storeLoad (storePut es l) n = some l :=
  h ▸ storeLoad_storePut es l

/-- C4: when the added name already exists, a BASE add keeps the original
`AddedAt`; a TEMPORARY add always stamps the add time, whether or not the
name existed. -/
theorem addLayer_addedAt_semantics (es : List RenderLayer) (l : RenderLayer) (now : ℚ) :
    (∀ ex : RenderLayer, l.Type' = "BASE" → storeLoad es l.Name = some ex →
      (storeLoad (AddLayer es l now).1 l.Name).map RenderLayer.AddedAt = some ex.AddedAt) ∧
    (l.Type' = "TEMPORARY" →
      (storeLoad (AddLayer es l now).1 l.Name).map RenderLayer.AddedAt = some now) := by
  constructor
  · intro ex hB hload
    unfold AddLayer
    rw [if_pos (Or.inl hB)]
    simp [hB, storeLoad_deleteOtherBase, hload, storeLoad_storePut']
  · intro hT
    unfold AddLayer
    rw [if_pos (Or.inr hT)]
    cases hload : storeLoad es l.Name with
    | some ex => simp [hT, hload, storeLoad_storePut']
    | none =>
      by_cases hn : now = 0
      · simp [hT, hload, hn, storeLoad_storePut']
      · simp [hT, hload, hn, storeLoad_storePut']

/-- C4 witness: re-adding name `L0` as TEMPORARY at time 7 stamps
`AddedAt = 7`. -/
theorem addLayer_addedAt_semantics_witness :
    (storeLoad (AddLayer [cexLayer 0 1] (cexLayer 0 2) 7).1 (cexLayer 0 2).Name).map
      RenderLayer.AddedAt = some 7 :=
  (addLayer_addedAt_semantics [cexLayer 0 1] (cexLayer 0 2) 7).2 rfl

/-- One `set_pixel(i, 0.0, 0.0, 0.0)` call zeroes exactly the three slots of
pixel `i`. -/
theorem setPixelFunc_zero_apply (b : PixBuf) (m : ℕ) (hm : m < LEDCount) (j : ℕ) :
    setPixelFunc b (Int.ofNat m) 0 0 0 j =
      if j = m * 3 then 0 else if j = m * 3 + 1 then 0
        else if j = m * 3 + 2 then 0 else b j := by
  unfold setPixelFunc
  rw [if_pos ⟨Int.ofNat_nonneg m, Int.ofNat_lt.mpr hm⟩]
  simp

/-- Executing the `base_black` script zeroes exactly the first `3*n` buffer
slots after `n` loop iterations. -/
theorem runBaseBlack_zeroed :
    ∀ n : ℕ, n ≤ LEDCount → ∀ (buf : PixBuf) (j : ℕ),
      ((List.range n).foldl (fun b (i : ℕ) => setPixelFunc b (Int.ofNat i) 0 0 0) buf) j =
        if j < 3 * n then 0 else buf j := by
  intro n
  induction n with
  | zero =>
    intro _ buf j
    simp
  | succ m ih =>
    intro hn buf j
    rw [List.range_succ, List.foldl_append, List.foldl_cons, List.foldl_nil,
      setPixelFunc_zero_apply _ m (by omega) j, ih (by omega) buf j]
    split_ifs <;> first | rfl | omega

/-- C10: right after `NewPipelineManager` the store holds exactly one layer —
the BASE layer `base_black` with priority 0, `AddedAt` equal to the pipeline
start time — and its script writes `(0, 0, 0)` to every pixel of the buffer.
(`time.Now()` is never the zero `time.Time`, hence `start ≠ 0` in the
embedding.) -/
theorem newPipelineManager_initial_store (start now : ℚ) (h : start ≠ 0) :
    NewPipelineManagerStore start now =
      [{ Name := "base_black",
         Code := "for i=0, LEDCount-1 do set_pixel(i, 0.0, 0.0, 0.0) end",
         Type' := "BASE", Priority := 0, BlendMode := .ModeBase,
         TimeoutSeconds := 0, AddedAt := start }] ∧
    (∀ (buf : PixBuf) (j : ℕ), j < LEDCount * 3 → runBaseBlackCode buf j = 0) := by
  constructor
  · unfold NewPipelineManagerStore AddLayer baseBlackLayer
    simp [storeLoad, deleteOtherBase, storePut, h]
  · intro buf j hj
    unfold runBaseBlackCode
    rw [runBaseBlack_zeroed LEDCount le_rfl buf j, if_pos (by omega)]

/-- C10 witness: instantiation at `start = 1`, `now = 2`. -/
theorem newPipelineManager_initial_store_witness :
    NewPipelineManagerStore 1 2 =
      [{ Name := "base_black",
         Code := "for i=0, LEDCount-1 do set_pixel(i, 0.0, 0.0, 0.0) end",
         Type' := "BASE", Priority := 0, BlendMode := .ModeBase,
         TimeoutSeconds := 0, AddedAt := 1 }] :=
  (newPipelineManager_initial_store 1 2 (by norm_num)).1

/-- Membership after a `storePut`: the stored layer or an original entry. -/
theorem mem_storePut {es : List RenderLayer} {l e : RenderLayer}
    (h : e ∈ storePut es l) : e = l ∨ e ∈ es := by
  induction es with
  | nil => simpa [storePut] using h
  | cons x xs ih =>
    by_cases hx : x.Name = l.Name
    · rw [storePut, if_pos hx] at h
      rcases List.mem_cons.mp h with h1 | h1
      · exact Or.inl h1
      · exact Or.inr (List.mem_cons_of_mem x h1)
    · rw [storePut, if_neg hx] at h
      rcases List.mem_cons.mp h with h1 | h1
      · exact Or.inr (h1 ▸ List.mem_cons_self x xs)
      · rcases ih h1 with h2 | h2
        · exact Or.inl h2
        · exact Or.inr (List.mem_cons_of_mem x h2)

/-- `storePut` preserves distinctness of the stored names. -/
theorem nodup_storePut (es : List RenderLayer) (l : RenderLayer)
    (h : (es.map RenderLayer.Name).Nodup) :
    ((storePut es l).map RenderLayer.Name).Nodup := by
  induction es with
  | nil => simp [storePut]
  | cons x xs ih =>
    rw [List.map_cons, List.nodup_cons] at h
    obtain ⟨hx, hxs⟩ := h
    by_cases hn : x.Name = l.Name
    · rw [storePut, if_pos hn, List.map_cons, List.nodup_cons]
      exact ⟨hn ▸ hx, hxs⟩
    · rw [storePut, if_neg hn, List.map_cons, List.nodup_cons]
      refine ⟨?_, ih hxs⟩
      intro hmem
      obtain ⟨e, he, hename⟩ := List.mem_map.mp hmem
      rcases mem_storePut he with h1 | h1
      · exact hn (by rw [← hename, h1])
      · exact hx (hename ▸ List.mem_map_of_mem RenderLayer.Name h1)

/-- Storing a non-BASE layer never increases the number of BASE entries. -/
theorem countBase_storePut_nonbase (es : List RenderLayer) (l : RenderLayer)
    (hl : ¬(l.Type' = "BASE")) : countBase (storePut es l) ≤ countBase es := by
  induction es with
  | nil => simp [storePut, countBase, List.countP_cons, hl]
  | cons x xs ih =>
    by_cases hn : x.Name = l.Name
    · rw [storePut, if_pos hn]
      unfold countBase at *
      rw [List.countP_cons, List.countP_cons]
      simp [hl]
    · rw [storePut, if_neg hn]
      unfold countBase at *
      rw [List.countP_cons, List.countP_cons]
      omega

/-- Storing a BASE layer into a store whose BASE entries all carry the stored
name (and whose names are distinct) leaves at most one BASE entry. -/
theorem countBase_storePut_base (es : List RenderLayer) (l : RenderLayer)
    (hT : l.Type' = "BASE")
    (hall : ∀ e ∈ es, e.Type' = "BASE" → e.Name = l.Name)
    (hnd : (es.map RenderLayer.Name).Nodup) :
    countBase (storePut es l) ≤ 1 := by
  induction es with
  | nil => simp [storePut, countBase, List.countP_cons, hT]
  | cons x xs ih =>
    rw [List.map_cons, List.nodup_cons] at hnd
    obtain ⟨hx, hxs⟩ := hnd
    by_cases hn : x.Name = l.Name
    · rw [storePut, if_pos hn]
      have hzero : countBase xs = 0 := by
        by_contra hpos
        obtain ⟨f, hf, hfP⟩ := List.countP_pos_iff.mp (Nat.pos_of_ne_zero hpos)
        have hfB : f.Type' = "BASE" := of_decide_eq_true hfP
        have hfn : f.Name = l.Name := hall f (List.mem_cons_of_mem x hf) hfB
        exact hx ((hn.trans hfn.symm) ▸ List.mem_map_of_mem RenderLayer.Name hf)
      unfold countBase at *
      rw [List.countP_cons, hzero]
      simp [hT]
    · have hxB : ¬(x.Type' = "BASE") := fun hB => hn (hall x (List.mem_cons_self x xs) hB)
      rw [storePut, if_neg hn]
      unfold countBase at *
      rw [List.countP_cons]
      have := ih (fun e he hB => hall e (List.mem_cons_of_mem x he) hB) hxs
      simp [hxB]
      omega

/-- `AddLayer` preserves name distinctness and the at-most-one-BASE bound. -/
theorem addLayer_preserves_inv (es : List RenderLayer) (l : RenderLayer) (now : ℚ)
    (hnd : (es.map RenderLayer.Name).Nodup) (hb : countBase es ≤ 1) :
    (((AddLayer es l now).1.map RenderLayer.Name).Nodup ∧
      countBase (AddLayer es l now).1 ≤ 1) := by
  have hndF : ((deleteOtherBase es l.Name).map RenderLayer.Name).Nodup :=
    hnd.sublist ((List.filter_sublist es).map RenderLayer.Name)
  have hallF : ∀ e ∈ deleteOtherBase es l.Name, e.Type' = "BASE" → e.Name = l.Name := by
    intro e he hB
    have := List.of_mem_filter he
    simp only [decide_eq_true_eq] at this
    tauto
  have key : ∀ l2 : RenderLayer, l2.Type' = "BASE" → l2.Name = l.Name →
      ((storePut (deleteOtherBase es l.Name) l2).map RenderLayer.Name).Nodup ∧
        countBase (storePut (deleteOtherBase es l.Name) l2) ≤ 1 := by
    intro l2 h2 hname
    refine ⟨nodup_storePut _ _ hndF, ?_⟩
    exact countBase_storePut_base _ _ h2 (fun e he hB => hname ▸ hallF e he hB) hndF
  have keyT : ∀ l2 : RenderLayer, ¬(l2.Type' = "BASE") →
      ((storePut es l2).map RenderLayer.Name).Nodup ∧
        countBase (storePut es l2) ≤ 1 := by
    intro l2 h2
    exact ⟨nodup_storePut _ _ hnd, le_trans (countBase_storePut_nonbase _ _ h2) hb⟩
  unfold AddLayer
  by_cases hk : l.Type' = "BASE" ∨ l.Type' = "TEMPORARY"
  · rw [if_pos hk]
    by_cases hB : l.Type' = "BASE"
    · rcases hload : storeLoad (deleteOtherBase es l.Name) l.Name with _ | ex
      · simp only [hB]
        simp [hload]
        by_cases hz : l.AddedAt = 0 <;> simp [hz] <;> exact key _ rfl rfl
      · simp only [hB]
        simp [hload]
        exact key _ rfl rfl
    · have hT : l.Type' = "TEMPORARY" := hk.resolve_left hB
      rcases hload : storeLoad es l.Name with _ | ex
      · simp only [hT]
        simp [hload]
        exact keyT _ (by simp)
      · simp only [hT]
        simp [hload]
        exact keyT _ (by simp)
  · rw [if_neg hk]
    exact ⟨hnd, hb⟩

/-- `RemoveLayer` preserves name distinctness and the at-most-one-BASE
bound. -/
theorem removeLayer_preserves_inv (es : List RenderLayer) (name : String)
    (hnd : (es.map RenderLayer.Name).Nodup) (hb : countBase es ≤ 1) :
    (((RemoveLayer es name).1.map RenderLayer.Name).Nodup ∧
      countBase (RemoveLayer es name).1 ≤ 1) := by
  unfold RemoveLayer
  rcases hload : storeLoad es name with _ | e
  · exact ⟨hnd, hb⟩
  · refine ⟨hnd.sublist ((List.filter_sublist es).map RenderLayer.Name), ?_⟩
    exact le_trans ((List.filter_sublist es).countP_le _) hb

/-- Any sequence of store operations preserves the two store invariants. -/
theorem applyOps_preserves_inv (ops : List StoreOp) :
    ∀ es : List RenderLayer, (es.map RenderLayer.Name).Nodup → countBase es ≤ 1 →
      (((applyOps es ops).map RenderLayer.Name).Nodup ∧ countBase (applyOps es ops) ≤ 1) := by
  induction ops with
  | nil => intro es hnd hb; exact ⟨hnd, hb⟩
  | cons op ops ih =>
    intro es hnd hb
    have hstep : (((applyOp es op).map RenderLayer.Name).Nodup ∧
        countBase (applyOp es op) ≤ 1) := by
      cases op with
      | add layer now => exact addLayer_preserves_inv es layer now hnd hb
      | remove name => exact removeLayer_preserves_inv es name hnd hb
    exact ih (applyOp es op) hstep.1 hstep.2

/-- After a successful BASE add, every BASE entry of the store carries the
added layer's name (the dedup pass deleted the others, the put overwrote the
remaining one). -/
theorem addLayer_base_names (es : List RenderLayer) (l : RenderLayer) (now : ℚ)
    (hB : l.Type' = "BASE") :
    ∀ e ∈ (AddLayer es l now).1, e.Type' = "BASE" → e.Name = l.Name := by
  intro e he heB
  unfold AddLayer at he
  rw [if_pos (Or.inl hB)] at he
  simp only [hB] at he
  rcases hload : storeLoad (deleteOtherBase es l.Name) l.Name with _ | ex
  · simp [hload] at he
    by_cases hz : l.AddedAt = 0
    · simp [hz] at he
      rcases mem_storePut he with h1 | h1
      · rw [h1]
      · have := List.of_mem_filter h1
        simp only [decide_eq_true_eq] at this
        tauto
    · simp [hz] at he
      rcases mem_storePut he with h1 | h1
      · rw [h1]
      · have := List.of_mem_filter h1
        simp only [decide_eq_true_eq] at this
        tauto
  · simp [hload] at he
    rcases mem_storePut he with h1 | h1
    · rw [h1]
    · have := List.of_mem_filter h1
      simp only [decide_eq_true_eq] at this
      tauto

/-- C1: starting from a store with at most one BASE layer (and distinct
names, the key-value map representation invariant), any sequence of
`AddLayer`/`RemoveLayer` operations leaves at most one BASE layer; moreover,
adding a BASE layer leaves no BASE entry with any other name. -/
theorem addLayer_single_base_invariant (s : List RenderLayer) (ops : List StoreOp)
    (hnd : (s.map RenderLayer.Name).Nodup) (hb : countBase s ≤ 1) :
    countBase (applyOps s ops) ≤ 1 ∧
    ∀ (l : RenderLayer) (now : ℚ), l.Type' = "BASE" →
      ∀ e ∈ (AddLayer (applyOps s ops) l now).1, e.Type' = "BASE" → e.Name = l.Name := by
  refine ⟨(applyOps_preserves_inv ops s hnd hb).2, ?_⟩
  intro l now hB e he heB
  exact addLayer_base_names (applyOps s ops) l now hB e he heB

/-- C1 witness: from the empty store, adding a TEMPORARY layer, a BASE layer,
then a second BASE layer under another name keeps the BASE count at one. -/
theorem addLayer_single_base_invariant_witness :
    countBase (applyOps []
      [StoreOp.add (cexLayer 0 1) 1,
       StoreOp.add { cexLayer 1 1 with Type' := "BASE" } 2,
       StoreOp.add { cexLayer 2 1 with Type' := "BASE" } 3]) ≤ 1 :=
  (addLayer_single_base_invariant []
    [StoreOp.add (cexLayer 0 1) 1,
     StoreOp.add { cexLayer 1 1 with Type' := "BASE" } 2,
     StoreOp.add { cexLayer 2 1 with Type' := "BASE" } 3]
    (by simp) (by simp [countBase])).1

